import Mathlib

/-!
# Task lifecycle of `pkg/job/task.go`

A shallow embedding of the Go package `job` (file `pkg/job/task.go`): the `Task`
execution instance, its construction by `NewTask` with functional options, status
recording by `SetStatus`, key construction by `Key` and teardown by `Stop`.

Go values are embedded as follows.

* `uint64` is a natural number (always below `2 ^ 64`); the code performs no arithmetic
  on it, so no wrap-around is involved. `int` is an integer.
* `time.Time` is an instant counted as a natural number; `*time.Time` is an `Option`.
* `error` is `Option GoError`, `none` being `nil`.
* a `func()` value is a `Func`, identified by which closure it is; a slice that may be
  `nil` is an `Option` of a list.
* a method with a pointer receiver takes the `Task` and returns the `Task` it leaves.
* the collaborators reached through the `*Job` (the store `Client`, the allocator
  `Worker.taskIdGen`, the `logger`), the clock `time.Now` and the encoders of
  `encoding/json` are declared outside `task.go`. They are the fields of `Env`: each is
  an arbitrary function of the number of calls made before, so that every behaviour of
  the collaborator is covered. `World` counts the calls and records them in a trace.
-/

namespace JunoAgent

/-! ## Data model -/

/-- Instant of `time.Time`. -/
abbrev Time := Nat

/-- A non-nil Go `error`. -/
structure GoError where
  msg : String
deriving DecidableEq, Repr

/-- Go `type CronTaskStatus string`. -/
abbrev CronTaskStatus := String

/-- Go `type ExecuteType int`. -/
abbrev ExecuteType := Int

/-- A Go `func()` value, identified by which closure it is. -/
structure Func where
  id : Nat
deriving DecidableEq, Repr

/-- The fields of the `Job` struct that `task.go` reads as data. The `Job` is reached
through a pointer that the code dereferences unconditionally, so it is never `nil` here. -/
structure Job where
  ID : String
  HostName : String
deriving DecidableEq, Repr

/-- Go `Task` struct. -/
structure Task where
  TaskID : Nat
  ExecuteType : JunoAgent.ExecuteType
  job : JunoAgent.Job
  executedAt : Time
  finishedAt : Option Time
  defers : Option (List Func)
deriving DecidableEq, Repr

/-- Go `type TaskOption func(t *Task)`. -/
abbrev TaskOption := Task → Task

/-- Go `TaskResult` struct. -/
structure TaskResult where
  TaskID : Nat
  ExecuteType : JunoAgent.ExecuteType
  Status : CronTaskStatus
  Job : JunoAgent.Job
  Logs : String
  RunOn : String
  ExecutedAt : Time
  FinishedAt : Option Time
deriving DecidableEq, Repr

def CronTaskStatusProcessing : CronTaskStatus := "processing"
def CronTaskStatusSuccess : CronTaskStatus := "success"
def CronTaskStatusFailed : CronTaskStatus := "failed"
def CronTaskStatusTimeout : CronTaskStatus := "timeout"

def ExecuteTypeAuto : ExecuteType := 0
def ExecuteTypeManual : ExecuteType := 1

/-! ## Environment and world -/

/-- One call made to a collaborator. -/
inductive Event where
  /-- a call of `taskIdGen.NextID()` -/
  | nextID
  /-- a call of `Client.Put(ctx, key, value)` -/
  | put (key value : String)
  /-- a call of `Client.Delete(ctx, key)` -/
  | delete (key : String)
  /-- a call of `logger.Error(msg, xlog.FieldErr(err))` -/
  | logError (msg : String) (err : GoError)
  /-- a call of a `func()` value -/
  | invoke (f : Func)
deriving DecidableEq, Repr

/-- Everything `task.go` uses and does not declare. -/
structure Env where
  /-- the constant `ResultKeyPrefix` -/
  ResultKeyPrefix : String
  /-- reading of the `k`-th call of `time.Now()` -/
  now : Nat → Time
  /-- result `(id, err)` of the `k`-th call of `taskIdGen.NextID()` -/
  nextID : Nat → Nat × Option GoError
  /-- error result of `Client.Put(ctx, key, value)` when it is the `k`-th store call -/
  put : Nat → String → String → Option GoError
  /-- error result of `Client.Delete(ctx, key)` when it is the `k`-th store call -/
  delete : Nat → String → Option GoError
  /-- the encoder of `encoding/json` on a `*Job`; `none` when it reports an error -/
  marshalJob : Job → Option String
  /-- the encoder of `encoding/json` on a `time.Time`; `none` when it reports an error -/
  marshalTime : Time → Option String
  /-- the encoder of `encoding/json` on a Go string: the quoted, escaped literal -/
  marshalString : String → String

/-- Calls made so far. -/
structure World where
  clockReads : Nat
  idCalls : Nat
  storeCalls : Nat
  trace : List Event
deriving DecidableEq, Repr

/-- Go `time.Now()`. -/
def timeNow (env : Env) (w : World) : Time × World :=
  (env.now w.clockReads, { w with clockReads := w.clockReads + 1 })

/-- Go `job.Worker.taskIdGen.NextID()`. -/
def NextID (env : Env) (w : World) : (Nat × Option GoError) × World :=
  (env.nextID w.idCalls,
    { w with idCalls := w.idCalls + 1, trace := w.trace ++ [Event.nextID] })

/-- Go `job.Client.Put(context.Background(), key, value)`, its error result. -/
def clientPut (env : Env) (key value : String) (w : World) : Option GoError × World :=
  (env.put w.storeCalls key value,
    { w with storeCalls := w.storeCalls + 1, trace := w.trace ++ [Event.put key value] })

/-- Go `job.Client.Delete(context.Background(), key)`, its error result. -/
def clientDelete (env : Env) (key : String) (w : World) : Option GoError × World :=
  (env.delete w.storeCalls key,
    { w with storeCalls := w.storeCalls + 1, trace := w.trace ++ [Event.delete key] })

/-- Go `job.logger.Error(msg, xlog.FieldErr(err))`. -/
def loggerError (msg : String) (err : GoError) (w : World) : World :=
  { w with trace := w.trace ++ [Event.logError msg err] }

/-! ## Serialization -/

/-- The encoder of `encoding/json` on a `*time.Time`: `null` for a nil pointer. -/
def marshalTimePtr (env : Env) : Option Time → Option String
  | none => some "null"
  | some t => env.marshalTime t

/-- Go `json.Marshal(&payload)` on a `TaskResult`: the struct fields in declaration order
under their `json` tags; `none` when a field's encoder reports an error. -/
def jsonMarshal (env : Env) (p : TaskResult) : Option String :=
  match env.marshalJob p.Job, env.marshalTime p.ExecutedAt, marshalTimePtr env p.FinishedAt with
  | some j, some e, some f =>
    some ("\x7b\"task_id\":" ++ toString p.TaskID
      ++ ",\"execute_type\":" ++ toString p.ExecuteType
      ++ ",\"status\":" ++ env.marshalString p.Status
      ++ ",\"job\":" ++ j
      ++ ",\"logs\":" ++ env.marshalString p.Logs
      ++ ",\"run_on\":" ++ env.marshalString p.RunOn
      ++ ",\"executed_at\":" ++ e
      ++ ",\"finished_at\":" ++ f ++ "\x7d")
  | _, _, _ => none

/-! ## Operations -/

/-- Go `WithTaskID`. -/
def WithTaskID (taskId : Nat) : TaskOption :=
  fun t => { t with TaskID := taskId }

/-- Go `WithExecuteType`. -/
def WithExecuteType (executeType : ExecuteType) : TaskOption :=
  fun t => { t with ExecuteType := executeType }

/-- Go `WithDefers`: a nil slice is first replaced by an empty one, then `fns` is appended. -/
def WithDefers (fns : List Func) : TaskOption :=
  fun t =>
    let t := if t.defers = none then { t with defers := some [] } else t
    { t with defers := some (t.defers.getD [] ++ fns) }

/-- Go `(*Task).Key`: `fmt.Sprintf("%s%s/%d", ResultKeyPrefix, t.job.ID, t.TaskID)`. -/
def Task.Key (env : Env) (t : Task) : String :=
  env.ResultKeyPrefix ++ t.job.ID ++ "/" ++ toString t.TaskID

/-- Go `NewTask`. -/
def NewTask (env : Env) (job : Job) (ops : List TaskOption) (w : World) : Task × World :=
  let (now, w) := timeNow env w
  let task : Task :=
    { TaskID := 0, ExecuteType := ExecuteTypeAuto, job := job, executedAt := now,
      finishedAt := none, defers := none }
  let task := ops.foldl (fun t op => op t) task
  if task.TaskID = 0 then
    let (r, w) := NextID env w
    ({ task with TaskID := r.1 }, w)
  else
    (task, w)

/-- Go `(*Task).SetStatus`: the Task it leaves, the error it returns and the world. The
error of `json.Marshal` is discarded, as in the source: on an error the bytes are nil and
the value written is the empty string. -/
def Task.SetStatus (env : Env) (t : Task) (status : CronTaskStatus) (logs : String)
    (w : World) : Task × Option GoError × World :=
  let (t, w) :=
    if status = CronTaskStatusSuccess ∨ status = CronTaskStatusFailed
        ∨ status = CronTaskStatusTimeout then
      let (now, w) := timeNow env w
      ({ t with finishedAt := some now }, w)
    else
      (t, w)
  let payload : TaskResult :=
    { TaskID := t.TaskID
      ExecuteType := t.ExecuteType
      Job := t.job
      Status := status
      Logs := logs
      RunOn := t.job.HostName
      ExecutedAt := t.executedAt
      FinishedAt := t.finishedAt }
  let payloadBytes := (jsonMarshal env payload).getD ""
  let (err, w) := clientPut env (t.Key env) payloadBytes w
  (t, err, w)

/-- Go `(*Task).Stop`: the Task it leaves and the world; it returns nothing. -/
def Task.Stop (env : Env) (t : Task) (w : World) : Task × World :=
  let (err, w) := clientDelete env (t.Key env) w
  match err with
  | some e => (t, loggerError "delete task result failed" e w)
  | none => (t, w)

/-! ## Runs and recognised options -/

/-- The options `task.go` provides, as data: `WithTaskID`, `WithExecuteType`, `WithDefers`. -/
inductive TaskOpt where
  | withTaskID (taskId : Nat)
  | withExecuteType (executeType : ExecuteType)
  | withDefers (fns : List Func)
deriving DecidableEq, Repr

/-- The `TaskOption` closure an option stands for. -/
def TaskOpt.fn : TaskOpt → TaskOption
  | .withTaskID n => WithTaskID n
  | .withExecuteType e => WithExecuteType e
  | .withDefers fns => WithDefers fns

/-- Whether an option is a `WithTaskID`. -/
def TaskOpt.isWithTaskID : TaskOpt → Bool
  | .withTaskID _ => true
  | _ => false

/-- The terminal statuses: Success, Failed, Timeout. -/
def IsTerminal (status : CronTaskStatus) : Prop :=
  status = CronTaskStatusSuccess ∨ status = CronTaskStatusFailed
    ∨ status = CronTaskStatusTimeout

instance (status : CronTaskStatus) : Decidable (IsTerminal status) := by
  unfold IsTerminal; infer_instance

/-- A call the owner makes on a Task after construction. -/
inductive Call where
  | setStatus (status : CronTaskStatus) (logs : String)
  | stop
deriving DecidableEq, Repr

/-- One call on the Task, the error result of `SetStatus` being dropped. -/
def step (env : Env) (s : Task × World) : Call → Task × World
  | .setStatus status logs =>
    let r := s.1.SetStatus env status logs s.2
    (r.1, r.2.2)
  | .stop => s.1.Stop env s.2

/-- The calls of a list made in order. -/
def run (env : Env) (s : Task × World) (calls : List Call) : Task × World :=
  calls.foldl (step env) s

/-- The status passed to the most recent `SetStatus` call of a list, if there is one. -/
def lastStatus : List Call → Option CronTaskStatus
  | [] => none
  | c :: cs =>
    match lastStatus cs with
    | some st => some st
    | none =>
      match c with
      | .setStatus st _ => some st
      | .stop => none

/-- Whether some `SetStatus` call of a list was passed a terminal status. -/
def anyTerminal : List Call → Bool
  | [] => false
  | .setStatus st _ :: cs => decide (IsTerminal st) || anyTerminal cs
  | .stop :: cs => anyTerminal cs

/-- The snapshot as the specification lists it: every field of the record from the Task,
its Job and the two arguments. -/
def specSnapshot (t : Task) (status : CronTaskStatus) (logs : String) : TaskResult where
  TaskID := t.TaskID
  ExecuteType := t.ExecuteType
  Status := status
  Job := t.job
  Logs := logs
  RunOn := t.job.HostName
  ExecutedAt := t.executedAt
  FinishedAt := t.finishedAt

/-! ## Example environment -/

/-- A store that accepts every call, an allocator that hands out `42`, a clock that
advances by one at each reading. -/
def exampleEnv : Env where
  ResultKeyPrefix := "/juno/cronjob/result/"
  now := fun k => 100 + k
  nextID := fun _ => (42, none)
  put := fun _ _ _ => none
  delete := fun _ _ => none
  marshalJob := fun j => some ("\x7b\"id\":\"" ++ j.ID ++ "\"\x7d")
  marshalTime := fun t => some (toString t)
  marshalString := fun s => "\"" ++ s ++ "\""

/-- The example environment with an allocator that succeeds with id `0`. -/
def zeroIdEnv : Env :=
  { exampleEnv with nextID := fun _ => (0, none) }

/-- The example environment with a store that rejects every call. -/
def failingStoreEnv : Env :=
  { exampleEnv with
    put := fun _ _ _ => some ⟨"store unavailable"⟩
    delete := fun _ _ => some ⟨"store unavailable"⟩ }

def exampleJob : Job := { ID := "daily-report", HostName := "node-1" }

/-- No call made yet. -/
def World.start : World := { clockReads := 0, idCalls := 0, storeCalls := 0, trace := [] }

def exampleTask : Task :=
  { TaskID := 7, ExecuteType := ExecuteTypeAuto, job := exampleJob, executedAt := 100,
    finishedAt := none, defers := none }

/-- A Task of Job `a/1` with TaskID `2`. -/
def slashTask : Task :=
  { TaskID := 2, ExecuteType := ExecuteTypeAuto, job := { ID := "a/1", HostName := "node-1" },
    executedAt := 100, finishedAt := none, defers := none }

/-- A Task of Job `a` with TaskID `12`. -/
def plainTask : Task :=
  { TaskID := 12, ExecuteType := ExecuteTypeAuto, job := { ID := "a", HostName := "node-1" },
    executedAt := 100, finishedAt := none, defers := none }

/-! ## Auxiliary notions for the statements -/

/-- The record a last-write-wins store holds at `key` after the store calls of a trace,
every call having succeeded: the value of the latest Put at `key`, unless a Delete at `key`
came after it. -/
def recordAt (key : String) (trace : List Event) : Option String :=
  trace.foldl
    (fun r e =>
      match e with
      | .put k v => if k = key then some v else r
      | .delete k => if k = key then none else r
      | _ => r)
    none

/-- The Task `NewTask` holds once its loop over the options is done, before it looks at
the TaskID. -/
def optionsApplied (env : Env) (job : Job) (ops : List TaskOption) (w : World) : Task :=
  ops.foldl (fun t op => op t)
    { TaskID := 0, ExecuteType := ExecuteTypeAuto, job := job,
      executedAt := env.now w.clockReads, finishedAt := none, defers := none }

/-- The argument of the last `WithExecuteType` option of a list, if there is one. -/
def lastExecuteType : List TaskOpt → Option ExecuteType
  | [] => none
  | o :: os =>
    match lastExecuteType os with
    | some e => some e
    | none =>
      match o with
      | .withExecuteType e => some e
      | _ => none

/-- The example environment with an allocator that fails: it returns the zero id with an
error. -/
def failingIdEnv : Env :=
  { exampleEnv with nextID := fun _ => (0, some ⟨"allocator unavailable"⟩) }

/-! ## Reading a decimal rendering back -/

/-- Value of a decimal digit character. -/
def digitVal (c : Char) : Nat := c.toNat - 48

/-- Value of a string of decimal digits. -/
def decodeDecimal (cs : List Char) : Nat :=
  cs.foldl (fun a c => 10 * a + digitVal c) 0

/-! ## Frame lemmas -/

theorem SetStatus_frame (env : Env) (t : Task) (status : CronTaskStatus) (logs : String)
    (w : World) :
    (t.SetStatus env status logs w).1.TaskID = t.TaskID
      ∧ (t.SetStatus env status logs w).1.job = t.job
      ∧ (t.SetStatus env status logs w).1.executedAt = t.executedAt
      ∧ (t.SetStatus env status logs w).1.ExecuteType = t.ExecuteType
      ∧ (t.SetStatus env status logs w).1.defers = t.defers := by
  unfold Task.SetStatus
  split_ifs <;> simp [timeNow, clientPut]

theorem SetStatus_finishedAt (env : Env) (t : Task) (status : CronTaskStatus) (logs : String)
    (w : World) :
    (t.SetStatus env status logs w).1.finishedAt
      = if IsTerminal status then some (env.now w.clockReads) else t.finishedAt := by
  unfold Task.SetStatus IsTerminal
  split_ifs <;> simp [timeNow, clientPut]

theorem SetStatus_clockReads (env : Env) (t : Task) (status : CronTaskStatus) (logs : String)
    (w : World) :
    (t.SetStatus env status logs w).2.2.clockReads
      = if IsTerminal status then w.clockReads + 1 else w.clockReads := by
  unfold Task.SetStatus IsTerminal
  split_ifs <;> simp [timeNow, clientPut]

theorem Stop_task (env : Env) (t : Task) (w : World) : (t.Stop env w).1 = t := by
  unfold Task.Stop
  simp only [clientDelete]
  split <;> rfl

theorem Stop_clockReads (env : Env) (t : Task) (w : World) :
    (t.Stop env w).2.clockReads = w.clockReads := by
  unfold Task.Stop
  simp only [clientDelete]
  split <;> rfl

theorem TaskOpt_fn_finishedAt (o : TaskOpt) (t : Task) :
    (o.fn t).finishedAt = t.finishedAt ∧ (o.fn t).executedAt = t.executedAt
      ∧ (o.fn t).job = t.job := by
  cases o with
  | withTaskID n => simp [TaskOpt.fn, WithTaskID]
  | withExecuteType e => simp [TaskOpt.fn, WithExecuteType]
  | withDefers fns => simp [TaskOpt.fn, WithDefers]; split_ifs <;> simp

theorem foldl_opts_frame (opts : List TaskOpt) (t : Task) :
    ((opts.map TaskOpt.fn).foldl (fun t op => op t) t).finishedAt = t.finishedAt
      ∧ ((opts.map TaskOpt.fn).foldl (fun t op => op t) t).executedAt = t.executedAt
      ∧ ((opts.map TaskOpt.fn).foldl (fun t op => op t) t).job = t.job := by
  induction opts generalizing t with
  | nil => simp
  | cons o os ih =>
    simp only [List.map_cons, List.foldl_cons]
    obtain ⟨h1, h2, h3⟩ := ih (o.fn t)
    obtain ⟨g1, g2, g3⟩ := TaskOpt_fn_finishedAt o t
    exact ⟨h1.trans g1, h2.trans g2, h3.trans g3⟩

theorem NewTask_finishedAt (env : Env) (job : Job) (opts : List TaskOpt) (w : World) :
    (NewTask env job (opts.map TaskOpt.fn) w).1.finishedAt = none := by
  unfold NewTask
  simp only [timeNow, NextID]
  split_ifs <;> simp [(foldl_opts_frame opts _).1]

theorem NewTask_executedAt (env : Env) (job : Job) (opts : List TaskOpt) (w : World) :
    (NewTask env job (opts.map TaskOpt.fn) w).1.executedAt = env.now w.clockReads
      ∧ (NewTask env job (opts.map TaskOpt.fn) w).2.clockReads = w.clockReads + 1 := by
  unfold NewTask
  simp only [timeNow, NextID]
  split_ifs <;> simp [(foldl_opts_frame opts _).2.1]

theorem run_cons (env : Env) (s : Task × World) (c : Call) (cs : List Call) :
    run env s (c :: cs) = run env (step env s c) cs := rfl

theorem step_finishedAt_isSome (env : Env) (s : Task × World) (c : Call) :
    (step env s c).1.finishedAt.isSome = (s.1.finishedAt.isSome || anyTerminal [c]) := by
  cases c with
  | setStatus st l =>
    simp only [step, SetStatus_finishedAt, anyTerminal]
    by_cases h : IsTerminal st <;> simp [h]
  | stop => simp [step, Stop_task, anyTerminal]

theorem anyTerminal_cons (c : Call) (cs : List Call) :
    anyTerminal (c :: cs) = (anyTerminal [c] || anyTerminal cs) := by
  cases c <;> simp [anyTerminal]

theorem run_finishedAt_isSome (env : Env) (s : Task × World) (calls : List Call) :
    (run env s calls).1.finishedAt.isSome = (s.1.finishedAt.isSome || anyTerminal calls) := by
  induction calls generalizing s with
  | nil => simp [run, anyTerminal]
  | cons c cs ih =>
    rw [run_cons, ih, step_finishedAt_isSome, anyTerminal_cons c cs, Bool.or_assoc]

theorem anyTerminal_of_lastStatus (calls : List Call) (st : CronTaskStatus)
    (h : lastStatus calls = some st) (hst : IsTerminal st) : anyTerminal calls = true := by
  induction calls with
  | nil => simp [lastStatus] at h
  | cons c cs ih =>
    rw [anyTerminal_cons]
    cases hl : lastStatus cs with
    | some st' =>
      simp only [lastStatus, hl, Option.some.injEq] at h
      simp [ih (h ▸ hl)]
    | none =>
      cases c with
      | setStatus st' l =>
        simp only [lastStatus, hl, Option.some.injEq] at h
        subst h
        simp [anyTerminal, hst]
      | stop => simp [lastStatus, hl] at h

theorem foldl_opts_TaskID (opts : List TaskOpt) (t : Task)
    (hno : ∀ o ∈ opts, o.isWithTaskID = false) :
    ((opts.map TaskOpt.fn).foldl (fun t op => op t) t).TaskID = t.TaskID := by
  induction opts generalizing t with
  | nil => simp
  | cons o os ih =>
    simp only [List.map_cons, List.foldl_cons]
    rw [ih (o.fn t) (fun o' ho' => hno o' (List.mem_cons_of_mem _ ho'))]
    have ho := hno o (List.mem_cons_self _ _)
    cases o with
    | withTaskID n => simp [TaskOpt.isWithTaskID] at ho
    | withExecuteType e => simp [TaskOpt.fn, WithExecuteType]
    | withDefers fns => simp [TaskOpt.fn, WithDefers]; split_ifs <;> simp

theorem step_executedAt (env : Env) (s : Task × World) (c : Call) :
    (step env s c).1.executedAt = s.1.executedAt
      ∧ s.2.clockReads ≤ (step env s c).2.clockReads := by
  cases c with
  | setStatus st l =>
    simp only [step, (SetStatus_frame env s.1 st l s.2).2.2.1, SetStatus_clockReads]
    split_ifs <;> simp
  | stop => simp [step, Stop_task, Stop_clockReads]

theorem run_executedAt (env : Env) (s : Task × World) (calls : List Call) :
    (run env s calls).1.executedAt = s.1.executedAt
      ∧ s.2.clockReads ≤ (run env s calls).2.clockReads := by
  induction calls generalizing s with
  | nil => simp [run]
  | cons c cs ih =>
    rw [run_cons]
    obtain ⟨h1, h2⟩ := ih (step env s c)
    obtain ⟨g1, g2⟩ := step_executedAt env s c
    exact ⟨h1.trans g1, g2.trans h2⟩

/-! ## Decimal rendering and keys -/

theorem toDigitsCore_append (b fuel n : Nat) (ds : List Char) :
    Nat.toDigitsCore b fuel n ds = Nat.toDigitsCore b fuel n [] ++ ds := by
  induction fuel generalizing n ds with
  | zero => simp [Nat.toDigitsCore]
  | succ f ih =>
    simp only [Nat.toDigitsCore]
    split_ifs with h
    · simp
    · rw [ih (n / b) (Nat.digitChar (n % b) :: ds), ih (n / b) [Nat.digitChar (n % b)]]
      simp

theorem digitVal_digitChar (k : Nat) (hk : k < 10) : digitVal (Nat.digitChar k) = k := by
  interval_cases k <;> rfl

theorem digitChar_ne_slash (k : Nat) (hk : k < 10) : Nat.digitChar k ≠ '/' := by
  interval_cases k <;> decide

theorem decodeDecimal_toDigitsCore (fuel n : Nat) (h : n < fuel) :
    decodeDecimal (Nat.toDigitsCore 10 fuel n []) = n := by
  induction fuel generalizing n with
  | zero => omega
  | succ f ih =>
    simp only [Nat.toDigitsCore]
    split_ifs with h0
    · have hn : n < 10 := by omega
      simp [decodeDecimal, digitVal_digitChar (n % 10) (Nat.mod_lt _ (by decide))]
      omega
    · rw [toDigitsCore_append]
      have hlt : n / 10 < f := by omega
      have := ih (n / 10) hlt
      simp only [decodeDecimal] at this
      simp only [decodeDecimal, List.foldl_append, List.foldl_cons, List.foldl_nil, this,
        digitVal_digitChar (n % 10) (Nat.mod_lt _ (by decide))]
      omega

theorem toDigits_injective (a b : Nat) (h : Nat.toDigits 10 a = Nat.toDigits 10 b) : a = b := by
  have ha := decodeDecimal_toDigitsCore (a + 1) a (Nat.lt_succ_self a)
  have hb := decodeDecimal_toDigitsCore (b + 1) b (Nat.lt_succ_self b)
  unfold Nat.toDigits at h
  rw [h] at ha
  exact ha.symm.trans hb

theorem toDigitsCore_no_slash (fuel n : Nat) (ds : List Char) (hds : '/' ∉ ds) :
    '/' ∉ Nat.toDigitsCore 10 fuel n ds := by
  induction fuel generalizing n ds with
  | zero => simpa [Nat.toDigitsCore] using hds
  | succ f ih =>
    have hd : '/' ∉ Nat.digitChar (n % 10) :: ds := by
      intro hmem
      rcases List.mem_cons.mp hmem with h | h
      · exact digitChar_ne_slash (n % 10) (Nat.mod_lt _ (by decide)) h.symm
      · exact hds h
    simp only [Nat.toDigitsCore]
    split_ifs with h0
    · exact hd
    · exact ih (n / 10) _ hd

theorem toDigits_no_slash (n : Nat) : '/' ∉ Nat.toDigits 10 n :=
  toDigitsCore_no_slash (n + 1) n [] (by simp)

theorem toString_nat_data (n : Nat) : (toString n).data = Nat.toDigits 10 n := rfl

/-- Splitting at the last occurrence of a separator is unambiguous. -/
theorem append_sep_inj {α : Type} (x : α) (j1 j2 d1 d2 : List α) (h1 : x ∉ d1) (h2 : x ∉ d2)
    (h : j1 ++ x :: d1 = j2 ++ x :: d2) : j1 = j2 ∧ d1 = d2 := by
  induction j1 generalizing j2 with
  | nil =>
    cases j2 with
    | nil => simpa using h
    | cons b j2 =>
      simp only [List.nil_append, List.cons_append, List.cons.injEq] at h
      exact absurd (h.2 ▸ (by simp : x ∈ j2 ++ x :: d2)) h1
  | cons a j1 ih =>
    cases j2 with
    | nil =>
      simp only [List.nil_append, List.cons_append, List.cons.injEq] at h
      exact absurd (h.2 ▸ (by simp : x ∈ j1 ++ x :: d1)) h2
    | cons b j2 =>
      simp only [List.cons_append, List.cons.injEq] at h
      obtain ⟨e1, e2⟩ := ih j2 h.2
      exact ⟨by rw [h.1, e1], e2⟩

theorem Key_data (env : Env) (t : Task) :
    (t.Key env).data = env.ResultKeyPrefix.data ++ (t.job.ID.data ++ '/' :: Nat.toDigits 10 t.TaskID) := by
  simp [Task.Key, String.data_append, toString_nat_data]

/-! ## The claims -/

/-- C1, as stated, fails at `n = 0`: `WithTaskID(0)` leaves the TaskID at the zero sentinel,
so `NewTask` consults the allocator and the Task gets the allocated id `42`, not `0`. -/
theorem NewTask_withTaskID_zero_counterexample :
    (NewTask exampleEnv exampleJob [WithTaskID 0] World.start).1.TaskID = 42
      ∧ (NewTask exampleEnv exampleJob [WithTaskID 0] World.start).1.TaskID ≠ 0 := by
  decide

/-- C1, amended: for every Job, every non-zero `n` and every allocator behaviour, the Task
built by `NewTask(job, WithTaskID(n))` has TaskID `n`. -/
theorem NewTask_withTaskID (env : Env) (job : Job) (n : Nat) (w : World) (hn : n ≠ 0) :
    (NewTask env job [WithTaskID n] w).1.TaskID = n := by
  simp [NewTask, WithTaskID, timeNow, hn]

/-- The amended C1 at `n = 5`, with an allocator that would hand out `0`. -/
theorem NewTask_withTaskID_witness :
    5 ≠ 0 ∧ (NewTask zeroIdEnv exampleJob [WithTaskID 5] World.start).1.TaskID = 5 :=
  ⟨by decide, NewTask_withTaskID zeroIdEnv exampleJob 5 World.start (by decide)⟩

/-- C2, as stated, fails: after `SetStatus(Success, "done")` and then
`SetStatus(Processing, "")` the Task still has `finishedAt` set, although the status passed
to the most recent call is Processing, which is not terminal. -/
theorem finishedAt_iff_last_terminal_counterexample :
    (run exampleEnv (NewTask exampleEnv exampleJob [] World.start)
        [Call.setStatus CronTaskStatusSuccess "done",
          Call.setStatus CronTaskStatusProcessing ""]).1.finishedAt = some 101
      ∧ lastStatus [Call.setStatus CronTaskStatusSuccess "done",
          Call.setStatus CronTaskStatusProcessing ""] = some CronTaskStatusProcessing
      ∧ ¬ IsTerminal CronTaskStatusProcessing := by
  decide

/-- C2, amended: in every state reached from `NewTask` (with any of the provided options)
by any sequence of `SetStatus` and `Stop` calls, `finishedAt` is set if and only if some
`SetStatus` call so far was passed a terminal status; in particular it is set whenever the
status passed to the most recent `SetStatus` call is terminal, and absent when no
`SetStatus` call has been made. -/
theorem finishedAt_isSome_iff_anyTerminal (env : Env) (job : Job) (opts : List TaskOpt)
    (w : World) (calls : List Call) :
    ((run env (NewTask env job (opts.map TaskOpt.fn) w) calls).1.finishedAt.isSome = true
        ↔ anyTerminal calls = true)
      ∧ ∀ st, lastStatus calls = some st → IsTerminal st →
          (run env (NewTask env job (opts.map TaskOpt.fn) w) calls).1.finishedAt.isSome
            = true := by
  have key : (run env (NewTask env job (opts.map TaskOpt.fn) w) calls).1.finishedAt.isSome
      = anyTerminal calls := by
    rw [run_finishedAt_isSome, NewTask_finishedAt]; simp
  refine ⟨by rw [key], fun st hl hst => ?_⟩
  rw [key]
  exact anyTerminal_of_lastStatus calls st hl hst

/-- C3: `Key()` does not collide. Two Tasks whose (Job identifier, TaskID) pairs differ have
different keys, whatever the Job identifiers (a `/` inside them included), the TaskIDs and
the fixed prefix are: the decimal TaskID holds no `/`, so the last `/` of a key is the
separator. -/
theorem Key_no_collision (env : Env) (t1 t2 : Task)
    (h : (t1.job.ID, t1.TaskID) ≠ (t2.job.ID, t2.TaskID)) : t1.Key env ≠ t2.Key env := by
  intro heq
  apply h
  have hd := congrArg String.data heq
  rw [Key_data, Key_data] at hd
  have hd := List.append_cancel_left hd
  obtain ⟨hj, hn⟩ := append_sep_inj '/' _ _ _ _ (toDigits_no_slash _) (toDigits_no_slash _) hd
  have hid : t1.job.ID = t2.job.ID := String.ext hj
  have hnum : t1.TaskID = t2.TaskID := toDigits_injective _ _ hn
  rw [hid, hnum]

/-- C3 at the Tasks `(a/1, 2)` and `(a, 12)`. -/
theorem Key_no_collision_witness :
    (slashTask.job.ID, slashTask.TaskID) ≠ (plainTask.job.ID, plainTask.TaskID)
      ∧ slashTask.Key exampleEnv ≠ plainTask.Key exampleEnv :=
  ⟨by decide, Key_no_collision exampleEnv slashTask plainTask (by decide)⟩

/-- C4: end-to-end trace. For every Job and every id the allocator returns successfully,
`NewTask(job)` with no options gives TaskID `id`, and `SetStatus(Processing, "")`,
`SetStatus(Success, "done")` and `Stop()` (the Delete succeeding) add to the trace, after
the allocator call, exactly a Put, a Put and a Delete, all at the key
`ResultKeyPrefix ++ job.ID ++ "/" ++ decimal(id)`; the first Put carries the snapshot with
status `"processing"` and no `finished_at`, the second the snapshot with status `"success"`
and a `finished_at`. -/
theorem end_to_end_trace (env : Env) (job : Job) (w : World) (id : Nat)
    (hid : env.nextID w.idCalls = (id, none))
    (hdel : ∀ k key, env.delete k key = none) :
    (NewTask env job [] w).1.TaskID = id
      ∧ (run env (NewTask env job [] w)
          [Call.setStatus CronTaskStatusProcessing "", Call.setStatus CronTaskStatusSuccess "done",
            Call.stop]).2.trace
        = w.trace ++
          [Event.nextID,
            Event.put (env.ResultKeyPrefix ++ job.ID ++ "/" ++ toString id)
              ((jsonMarshal env
                { TaskID := id, ExecuteType := ExecuteTypeAuto, Status := "processing",
                  Job := job, Logs := "", RunOn := job.HostName,
                  ExecutedAt := env.now w.clockReads, FinishedAt := none }).getD ""),
            Event.put (env.ResultKeyPrefix ++ job.ID ++ "/" ++ toString id)
              ((jsonMarshal env
                { TaskID := id, ExecuteType := ExecuteTypeAuto, Status := "success",
                  Job := job, Logs := "done", RunOn := job.HostName,
                  ExecutedAt := env.now w.clockReads,
                  FinishedAt := some (env.now (w.clockReads + 1)) }).getD ""),
            Event.delete (env.ResultKeyPrefix ++ job.ID ++ "/" ++ toString id)] := by
  have hS : IsTerminal CronTaskStatusSuccess := Or.inl rfl
  have hP : ¬ IsTerminal CronTaskStatusProcessing := by decide
  unfold IsTerminal at hS hP
  simp [run, step, NewTask, Task.SetStatus, Task.Stop, timeNow, NextID, clientPut, clientDelete,
    hid, hdel, hS, hP, Task.Key]
  exact ⟨rfl, rfl⟩

/-- C4 at Job `daily-report` and allocated id `42`: the key and the two values in full. -/
theorem end_to_end_trace_witness :
    exampleEnv.nextID World.start.idCalls = (42, none)
      ∧ (run exampleEnv (NewTask exampleEnv exampleJob [] World.start)
          [Call.setStatus CronTaskStatusProcessing "", Call.setStatus CronTaskStatusSuccess "done",
            Call.stop]).2.trace
        = [Event.nextID,
            Event.put "/juno/cronjob/result/daily-report/42"
              "\x7b\"task_id\":42,\"execute_type\":0,\"status\":\"processing\",\"job\":\x7b\"id\":\"daily-report\"\x7d,\"logs\":\"\",\"run_on\":\"node-1\",\"executed_at\":100,\"finished_at\":null\x7d",
            Event.put "/juno/cronjob/result/daily-report/42"
              "\x7b\"task_id\":42,\"execute_type\":0,\"status\":\"success\",\"job\":\x7b\"id\":\"daily-report\"\x7d,\"logs\":\"done\",\"run_on\":\"node-1\",\"executed_at\":100,\"finished_at\":101\x7d",
            Event.delete "/juno/cronjob/result/daily-report/42"] :=
  ⟨rfl, (end_to_end_trace exampleEnv exampleJob World.start 42 rfl (fun _ _ => rfl)).2.trans
    (by decide)⟩

/-- C5: `SetStatus` propagates the store write result and does not retry. For every Task,
status and logs, `SetStatus(status, logs)` adds to the trace exactly one event, a Put at key
`Key()`, and the error it returns is the error that Put returned (`nil` exactly when the Put
returned `nil`). -/
theorem SetStatus_one_put (env : Env) (t : Task) (status : CronTaskStatus) (logs : String)
    (w : World) :
    ∃ value : String,
      (t.SetStatus env status logs w).2.2.trace = w.trace ++ [Event.put (t.Key env) value]
        ∧ (t.SetStatus env status logs w).2.1 = env.put w.storeCalls (t.Key env) value
        ∧ (t.SetStatus env status logs w).2.2.storeCalls = w.storeCalls + 1 := by
  unfold Task.SetStatus
  split_ifs <;> exact ⟨_, rfl, rfl, rfl⟩

/-- C6: `Stop()` makes exactly one store call, a Delete at `Key()`, and absorbs its failure.
Whether the Delete succeeds or fails, `Stop()` returns (it has no error result), leaves the
Task as it was, and adds to the trace only the Delete, followed by one logger call when the
Delete failed: no Put and no call of a registered deferred action. -/
theorem Stop_one_delete (env : Env) (t : Task) (w : World) :
    (t.Stop env w).1 = t
      ∧ (t.Stop env w).2.storeCalls = w.storeCalls + 1
      ∧ (t.Stop env w).2.trace = w.trace ++ Event.delete (t.Key env) ::
          (match env.delete w.storeCalls (t.Key env) with
           | none => []
           | some e => [Event.logError "delete task result failed" e]) := by
  unfold Task.Stop
  simp only [clientDelete]
  cases env.delete w.storeCalls (t.Key env) <;> simp [loggerError]

/-- C7, as stated, fails: an allocator whose `NextID` succeeds with id `0` leaves the Task
built with no options at TaskID `0`. -/
theorem NewTask_zero_id_counterexample :
    zeroIdEnv.nextID World.start.idCalls = (0, none)
      ∧ (NewTask zeroIdEnv exampleJob [] World.start).1.TaskID = 0 := by
  decide

/-- C7, amended: for every Job and every option list that contains no `WithTaskID` option,
if the allocator's `NextID` succeeds with `id` then the Task returned by `NewTask` has
TaskID `id`; so its TaskID is non-zero exactly when the allocated id is non-zero. -/
theorem NewTask_allocated_id (env : Env) (job : Job) (opts : List TaskOpt) (w : World)
    (id : Nat) (hno : ∀ o ∈ opts, o.isWithTaskID = false)
    (hid : env.nextID w.idCalls = (id, none)) :
    (NewTask env job (opts.map TaskOpt.fn) w).1.TaskID = id
      ∧ ((NewTask env job (opts.map TaskOpt.fn) w).1.TaskID ≠ 0 ↔ id ≠ 0) := by
  have h : (NewTask env job (opts.map TaskOpt.fn) w).1.TaskID = id := by
    unfold NewTask
    simp only [timeNow, NextID]
    rw [if_pos (by rw [foldl_opts_TaskID opts _ hno]), hid]
  exact ⟨h, by rw [h]⟩

/-- The amended C7 at the options `WithExecuteType(Manual), WithDefers(f)` and id `42`. -/
theorem NewTask_allocated_id_witness :
    (∀ o ∈ [TaskOpt.withExecuteType ExecuteTypeManual, TaskOpt.withDefers [⟨1⟩]],
        o.isWithTaskID = false)
      ∧ exampleEnv.nextID World.start.idCalls = (42, none)
      ∧ (NewTask exampleEnv exampleJob
          ([TaskOpt.withExecuteType ExecuteTypeManual, TaskOpt.withDefers [⟨1⟩]].map TaskOpt.fn)
          World.start).1.TaskID = 42 :=
  ⟨by decide, rfl,
    (NewTask_allocated_id exampleEnv exampleJob
      [TaskOpt.withExecuteType ExecuteTypeManual, TaskOpt.withDefers [⟨1⟩]] World.start 42
      (by decide) rfl).1⟩

/-- C8: the value `SetStatus(status, logs)` writes is the serialization of the snapshot of
the Task, spelled out field by field. When the encoders of the Job and of the times succeed
with `j`, `e` and `f`, the one Put carries the object whose fields are, in this order,
`task_id` (the decimal TaskID), `execute_type` (the ExecuteType), `status` (the status
argument), `job` (the Job), `logs` (the logs argument), `run_on` (the Job's HostName),
`executed_at` (executedAt) and `finished_at`: `null` when the Task's `finishedAt` is absent
after the call, the encoding of its value otherwise, `finishedAt` being the clock reading
of this call for a terminal status and left as it was for any other. This text is
`json.Marshal` of the snapshot the specification lists, and the four statuses are the
strings `processing`, `success`, `failed` and `timeout`. -/
theorem SetStatus_writes_snapshot (env : Env) (t : Task) (status : CronTaskStatus)
    (logs : String) (w : World) (j e f : String)
    (hj : env.marshalJob t.job = some j)
    (he : env.marshalTime t.executedAt = some e)
    (hf : ∀ x, (t.SetStatus env status logs w).1.finishedAt = some x →
      env.marshalTime x = some f) :
    (t.SetStatus env status logs w).2.2.trace
        = w.trace ++ [Event.put (t.Key env)
            ("\x7b\"task_id\":" ++ toString t.TaskID
              ++ ",\"execute_type\":" ++ toString t.ExecuteType
              ++ ",\"status\":" ++ env.marshalString status
              ++ ",\"job\":" ++ j
              ++ ",\"logs\":" ++ env.marshalString logs
              ++ ",\"run_on\":" ++ env.marshalString t.job.HostName
              ++ ",\"executed_at\":" ++ e
              ++ ",\"finished_at\":"
              ++ (match (t.SetStatus env status logs w).1.finishedAt with
                  | none => "null"
                  | some _ => f)
              ++ "\x7d")]
      ∧ (t.SetStatus env status logs w).2.2.trace
        = w.trace ++ [Event.put (t.Key env)
            ((jsonMarshal env
              (specSnapshot (t.SetStatus env status logs w).1 status logs)).getD "")]
      ∧ (t.SetStatus env status logs w).1.finishedAt
        = (if IsTerminal status then some (env.now w.clockReads) else t.finishedAt)
      ∧ CronTaskStatusProcessing = "processing" ∧ CronTaskStatusSuccess = "success"
      ∧ CronTaskStatusFailed = "failed" ∧ CronTaskStatusTimeout = "timeout" := by
  refine ⟨?_, ?_, SetStatus_finishedAt env t status logs w, rfl, rfl, rfl, rfl⟩
  · rw [SetStatus_finishedAt] at hf ⊢
    by_cases h : IsTerminal status
    · have hx := hf (env.now w.clockReads) (by rw [if_pos h])
      rw [if_pos h]
      unfold IsTerminal at h
      simp [Task.SetStatus, h, timeNow, clientPut, Task.Key, jsonMarshal, marshalTimePtr, hj, he,
        hx]
    · rw [if_neg h] at hf ⊢
      unfold IsTerminal at h
      cases hfin : t.finishedAt with
      | none =>
        simp [Task.SetStatus, h, timeNow, clientPut, Task.Key, jsonMarshal, marshalTimePtr, hj,
          he, hfin]
      | some x =>
        have hx := hf x hfin
        simp [Task.SetStatus, h, timeNow, clientPut, Task.Key, jsonMarshal, marshalTimePtr, hj,
          he, hfin, hx]
  · unfold Task.SetStatus
    split_ifs <;> rfl

/-- C8 at `SetStatus(Timeout, "late")` and at `SetStatus(Processing, "")` on the example
Task: the values written, in full, with `finished_at` set in the first and `null` in the
second. -/
theorem SetStatus_writes_snapshot_witness :
    exampleEnv.marshalJob exampleTask.job = some "\x7b\"id\":\"daily-report\"\x7d"
      ∧ exampleEnv.marshalTime exampleTask.executedAt = some "100"
      ∧ (∀ x, (exampleTask.SetStatus exampleEnv CronTaskStatusTimeout "late"
            World.start).1.finishedAt = some x → exampleEnv.marshalTime x = some "100")
      ∧ (exampleTask.SetStatus exampleEnv CronTaskStatusTimeout "late" World.start).2.2.trace
        = [Event.put "/juno/cronjob/result/daily-report/7"
            "\x7b\"task_id\":7,\"execute_type\":0,\"status\":\"timeout\",\"job\":\x7b\"id\":\"daily-report\"\x7d,\"logs\":\"late\",\"run_on\":\"node-1\",\"executed_at\":100,\"finished_at\":100\x7d"]
      ∧ (exampleTask.SetStatus exampleEnv CronTaskStatusProcessing "" World.start).2.2.trace
        = [Event.put "/juno/cronjob/result/daily-report/7"
            "\x7b\"task_id\":7,\"execute_type\":0,\"status\":\"processing\",\"job\":\x7b\"id\":\"daily-report\"\x7d,\"logs\":\"\",\"run_on\":\"node-1\",\"executed_at\":100,\"finished_at\":null\x7d"] :=
  ⟨rfl, rfl, fun x hx => by cases hx; rfl,
    (SetStatus_writes_snapshot exampleEnv exampleTask CronTaskStatusTimeout "late"
      World.start "\x7b\"id\":\"daily-report\"\x7d" "100" "100" rfl rfl
      (fun x hx => by cases hx; rfl)).1.trans (by decide),
    (SetStatus_writes_snapshot exampleEnv exampleTask CronTaskStatusProcessing ""
      World.start "\x7b\"id\":\"daily-report\"\x7d" "100" "" rfl rfl
      (fun x hx => by cases hx)).1.trans (by decide)⟩

/-- C9: for every Task reached from `NewTask` by any sequence of `SetStatus` and `Stop`
calls and every terminal status, after `SetStatus(status, logs)` the Task's `finishedAt` is
set to the clock reading taken during that call, and that reading is not before
`executedAt` when the clock is non-decreasing; whether `finishedAt` was set before plays no
part. -/
theorem SetStatus_terminal_stamps (env : Env) (hclock : Monotone env.now) (job : Job)
    (opts : List TaskOpt) (w : World) (calls : List Call) (s : Task × World)
    (hs : s = run env (NewTask env job (opts.map TaskOpt.fn) w) calls)
    (status : CronTaskStatus) (logs : String) (hterm : IsTerminal status) :
    (s.1.SetStatus env status logs s.2).1.finishedAt = some (env.now s.2.clockReads)
      ∧ (s.1.SetStatus env status logs s.2).1.executedAt ≤ env.now s.2.clockReads := by
  refine ⟨by rw [SetStatus_finishedAt, if_pos hterm], ?_⟩
  rw [(SetStatus_frame env _ status logs _).2.2.1, hs]
  obtain ⟨h1, h2⟩ := run_executedAt env (NewTask env job (opts.map TaskOpt.fn) w) calls
  obtain ⟨g1, g2⟩ := NewTask_executedAt env job opts w
  rw [h1, g1]
  exact hclock (by omega)

/-- C9 at a Task that already recorded Failed: Timeout re-stamps `finishedAt`. -/
theorem SetStatus_terminal_stamps_witness :
    Monotone exampleEnv.now ∧ IsTerminal CronTaskStatusTimeout
      ∧ ((run exampleEnv (NewTask exampleEnv exampleJob [] World.start)
            [Call.setStatus CronTaskStatusFailed "boom"]).1.SetStatus exampleEnv
          CronTaskStatusTimeout "late"
          (run exampleEnv (NewTask exampleEnv exampleJob [] World.start)
            [Call.setStatus CronTaskStatusFailed "boom"]).2).1.finishedAt = some 102 :=
  ⟨fun _ _ h => Nat.add_le_add_left h 100, by decide,
    (SetStatus_terminal_stamps exampleEnv (fun _ _ h => Nat.add_le_add_left h 100) exampleJob
      [] World.start [Call.setStatus CronTaskStatusFailed "boom"] _ rfl
      CronTaskStatusTimeout "late" (by decide)).1⟩

/-- C10: for every Task and every two terminal statuses, `SetStatus(s1, l1)` followed by
`SetStatus(s2, l2)` adds to the trace two Puts at the same key `Key()`. The first call
stamps `finishedAt` with its clock reading and the second with the next reading, which is
not before the first when the clock is non-decreasing; and when the encoders of the Job and
of the times succeed, the two values written are the two records in full, the `finished_at`
field of each holding the encoding of the stamp of its own call, not `null`. -/
theorem SetStatus_twice_terminal (env : Env) (hclock : Monotone env.now) (t : Task)
    (s1 s2 : CronTaskStatus) (l1 l2 : String) (w : World)
    (h1 : IsTerminal s1) (h2 : IsTerminal s2) (j e e1 e2 : String)
    (hj : env.marshalJob t.job = some j)
    (he : env.marshalTime t.executedAt = some e)
    (he1 : env.marshalTime (env.now w.clockReads) = some e1)
    (he2 : env.marshalTime (env.now (w.clockReads + 1)) = some e2) :
    (t.SetStatus env s1 l1 w).1.finishedAt = some (env.now w.clockReads)
      ∧ ((t.SetStatus env s1 l1 w).1.SetStatus env s2 l2
          (t.SetStatus env s1 l1 w).2.2).1.finishedAt = some (env.now (w.clockReads + 1))
      ∧ env.now w.clockReads ≤ env.now (w.clockReads + 1)
      ∧ ((t.SetStatus env s1 l1 w).1.SetStatus env s2 l2
          (t.SetStatus env s1 l1 w).2.2).2.2.trace
        = w.trace ++
          [Event.put (t.Key env)
              ("\x7b\"task_id\":" ++ toString t.TaskID
                ++ ",\"execute_type\":" ++ toString t.ExecuteType
                ++ ",\"status\":" ++ env.marshalString s1
                ++ ",\"job\":" ++ j
                ++ ",\"logs\":" ++ env.marshalString l1
                ++ ",\"run_on\":" ++ env.marshalString t.job.HostName
                ++ ",\"executed_at\":" ++ e
                ++ ",\"finished_at\":" ++ e1 ++ "\x7d"),
            Event.put (t.Key env)
              ("\x7b\"task_id\":" ++ toString t.TaskID
                ++ ",\"execute_type\":" ++ toString t.ExecuteType
                ++ ",\"status\":" ++ env.marshalString s2
                ++ ",\"job\":" ++ j
                ++ ",\"logs\":" ++ env.marshalString l2
                ++ ",\"run_on\":" ++ env.marshalString t.job.HostName
                ++ ",\"executed_at\":" ++ e
                ++ ",\"finished_at\":" ++ e2 ++ "\x7d")] := by
  refine ⟨?_, ?_, hclock (Nat.le_succ _), ?_⟩
  · rw [SetStatus_finishedAt, if_pos h1]
  · rw [SetStatus_finishedAt, if_pos h2, SetStatus_clockReads, if_pos h1]
  · unfold IsTerminal at h1 h2
    simp [Task.SetStatus, h1, h2, timeNow, clientPut, Task.Key, jsonMarshal, marshalTimePtr,
      hj, he, he1, he2]

/-- C10 at Failed followed by Success on the example Task: the two values written, in
full, with `finished_at` `100` and then `101`. -/
theorem SetStatus_twice_terminal_witness :
    Monotone exampleEnv.now ∧ IsTerminal CronTaskStatusFailed
      ∧ IsTerminal CronTaskStatusSuccess
      ∧ exampleEnv.marshalTime (exampleEnv.now World.start.clockReads) = some "100"
      ∧ exampleEnv.marshalTime (exampleEnv.now (World.start.clockReads + 1)) = some "101"
      ∧ ((exampleTask.SetStatus exampleEnv CronTaskStatusFailed "boom" World.start).1.SetStatus
            exampleEnv CronTaskStatusSuccess "done"
            (exampleTask.SetStatus exampleEnv CronTaskStatusFailed "boom"
              World.start).2.2).2.2.trace
          = [Event.put "/juno/cronjob/result/daily-report/7"
              "\x7b\"task_id\":7,\"execute_type\":0,\"status\":\"failed\",\"job\":\x7b\"id\":\"daily-report\"\x7d,\"logs\":\"boom\",\"run_on\":\"node-1\",\"executed_at\":100,\"finished_at\":100\x7d",
            Event.put "/juno/cronjob/result/daily-report/7"
              "\x7b\"task_id\":7,\"execute_type\":0,\"status\":\"success\",\"job\":\x7b\"id\":\"daily-report\"\x7d,\"logs\":\"done\",\"run_on\":\"node-1\",\"executed_at\":100,\"finished_at\":101\x7d"] :=
  ⟨fun _ _ h => Nat.add_le_add_left h 100, by decide, by decide, rfl, rfl,
    (SetStatus_twice_terminal exampleEnv (fun _ _ h => Nat.add_le_add_left h 100)
      exampleTask CronTaskStatusFailed CronTaskStatusSuccess "boom" "done" World.start
      (by decide) (by decide) "\x7b\"id\":\"daily-report\"\x7d" "100" "100" "101"
      rfl rfl rfl rfl).2.2.2.trans (by decide)⟩

/-! ## Lemmas for the frame, the options and the allocator -/

theorem SetStatus_task (env : Env) (t : Task) (status : CronTaskStatus) (logs : String)
    (w : World) :
    (t.SetStatus env status logs w).1
      = { t with finishedAt := (t.SetStatus env status logs w).1.finishedAt } := by
  unfold Task.SetStatus
  split_ifs <;> simp [timeNow, clientPut]

theorem step_frame (env : Env) (s : Task × World) (c : Call) :
    (step env s c).1 = { s.1 with finishedAt := (step env s c).1.finishedAt } := by
  cases c with
  | setStatus st l => exact SetStatus_task env s.1 st l s.2
  | stop => simp [step, Stop_task]

theorem run_frame (env : Env) (s : Task × World) (calls : List Call) :
    (run env s calls).1 = { s.1 with finishedAt := (run env s calls).1.finishedAt } := by
  induction calls generalizing s with
  | nil => simp [run]
  | cons c cs ih =>
    rw [run_cons]
    have h1 := ih (step env s c)
    have h2 := step_frame env s c
    rw [h1]
    rw [h2]

/-- The two branches of `NewTask`, in terms of the Task its option loop leaves. -/
theorem NewTask_eq (env : Env) (job : Job) (ops : List TaskOption) (w : World) :
    NewTask env job ops w =
      if (optionsApplied env job ops w).TaskID = 0 then
        ({ optionsApplied env job ops w with TaskID := (env.nextID w.idCalls).1 },
          { w with clockReads := w.clockReads + 1, idCalls := w.idCalls + 1,
                   trace := w.trace ++ [Event.nextID] })
      else
        (optionsApplied env job ops w, { w with clockReads := w.clockReads + 1 }) := by
  unfold NewTask optionsApplied
  simp only [timeNow, NextID]

theorem foldl_opts_ExecuteType (opts : List TaskOpt) (t : Task) :
    ((opts.map TaskOpt.fn).foldl (fun t op => op t) t).ExecuteType
      = (lastExecuteType opts).getD t.ExecuteType := by
  induction opts generalizing t with
  | nil => simp [lastExecuteType]
  | cons o os ih =>
    simp only [List.map_cons, List.foldl_cons, ih, lastExecuteType]
    cases hl : lastExecuteType os with
    | some e => simp
    | none =>
      cases o with
      | withTaskID n => simp [TaskOpt.fn, WithTaskID]
      | withExecuteType e => simp [TaskOpt.fn, WithExecuteType]
      | withDefers fns => simp [TaskOpt.fn, WithDefers]; split_ifs <;> simp

/-! ## The claims, continued -/

/-- C11, as stated, fails for a terminal status: the second `SetStatus(Success, "done")`
re-stamps `finishedAt` (reading `101` after `100`), so the Task and the record stored at
`Key()` after two calls differ from those after one call. -/
theorem SetStatus_twice_differs_counterexample :
    ((exampleTask.SetStatus exampleEnv CronTaskStatusSuccess "done" World.start).1.SetStatus
        exampleEnv CronTaskStatusSuccess "done"
        (exampleTask.SetStatus exampleEnv CronTaskStatusSuccess "done" World.start).2.2).1.finishedAt
        = some 101
      ∧ (exampleTask.SetStatus exampleEnv CronTaskStatusSuccess "done" World.start).1.finishedAt
        = some 100
      ∧ recordAt (exampleTask.Key exampleEnv)
          ((exampleTask.SetStatus exampleEnv CronTaskStatusSuccess "done" World.start).1.SetStatus
            exampleEnv CronTaskStatusSuccess "done"
            (exampleTask.SetStatus exampleEnv CronTaskStatusSuccess "done"
              World.start).2.2).2.2.trace
        ≠ recordAt (exampleTask.Key exampleEnv)
          (exampleTask.SetStatus exampleEnv CronTaskStatusSuccess "done" World.start).2.2.trace := by
  decide

/-- C11, amended: for every Task, status and logs, calling `SetStatus(status, logs)` twice in
succession leaves the Task and the record stored at `Key()` in the same state as calling it
once, provided the status is not terminal or the clock gives the second call the same
reading as the first. -/
theorem SetStatus_idempotent (env : Env) (t : Task) (status : CronTaskStatus) (logs : String)
    (w : World)
    (hclock : IsTerminal status → env.now (w.clockReads + 1) = env.now w.clockReads) :
    ((t.SetStatus env status logs w).1.SetStatus env status logs
        (t.SetStatus env status logs w).2.2).1 = (t.SetStatus env status logs w).1
      ∧ recordAt (t.Key env)
          ((t.SetStatus env status logs w).1.SetStatus env status logs
            (t.SetStatus env status logs w).2.2).2.2.trace
        = recordAt (t.Key env) (t.SetStatus env status logs w).2.2.trace := by
  by_cases h : IsTerminal status
  · have hc := hclock h
    unfold IsTerminal at h
    simp [Task.SetStatus, h, timeNow, clientPut, Task.Key, hc, recordAt, List.foldl_append]
  · unfold IsTerminal at h
    simp [Task.SetStatus, h, timeNow, clientPut, Task.Key, recordAt, List.foldl_append]

/-- The amended C11 at `SetStatus(Processing, "")`. -/
theorem SetStatus_idempotent_witness :
    (IsTerminal CronTaskStatusProcessing →
        exampleEnv.now (World.start.clockReads + 1) = exampleEnv.now World.start.clockReads)
      ∧ ((exampleTask.SetStatus exampleEnv CronTaskStatusProcessing "" World.start).1.SetStatus
          exampleEnv CronTaskStatusProcessing ""
          (exampleTask.SetStatus exampleEnv CronTaskStatusProcessing "" World.start).2.2).1
        = (exampleTask.SetStatus exampleEnv CronTaskStatusProcessing "" World.start).1 :=
  ⟨fun h => absurd h (by decide),
    (SetStatus_idempotent exampleEnv exampleTask CronTaskStatusProcessing "" World.start
      (fun h => absurd h (by decide))).1⟩

/-- C12: frame and key stability. After any sequence of `SetStatus` and `Stop` calls the
Task is the Task before them with at most `finishedAt` changed: TaskID, ExecuteType,
executedAt, the Job and defers are as before, and so `Key()` returns the same string. -/
theorem run_frame_and_Key (env : Env) (s : Task × World) (calls : List Call) :
    (run env s calls).1 = { s.1 with finishedAt := (run env s calls).1.finishedAt }
      ∧ (run env s calls).1.TaskID = s.1.TaskID
      ∧ (run env s calls).1.ExecuteType = s.1.ExecuteType
      ∧ (run env s calls).1.executedAt = s.1.executedAt
      ∧ (run env s calls).1.job = s.1.job
      ∧ (run env s calls).1.defers = s.1.defers
      ∧ (run env s calls).1.Key env = s.1.Key env := by
  have h := run_frame env s calls
  refine ⟨h, ?_, ?_, ?_, ?_, ?_, ?_⟩ <;> (rw [h]; try rfl)

/-- C13: `finishedAt` is absent until a terminal status is recorded and never cleared.
`NewTask` (with any of the provided options) returns a Task with `finishedAt` absent;
`SetStatus(Processing, logs)` and `Stop()` leave `finishedAt` exactly as it was; and no
`SetStatus` call makes a set `finishedAt` absent. -/
theorem finishedAt_absent_until_terminal (env : Env) (job : Job) (opts : List TaskOpt)
    (w : World) (t : Task) (logs : String) (w' : World) :
    (NewTask env job (opts.map TaskOpt.fn) w).1.finishedAt = none
      ∧ (t.SetStatus env CronTaskStatusProcessing logs w').1.finishedAt = t.finishedAt
      ∧ (t.Stop env w').1.finishedAt = t.finishedAt
      ∧ ∀ status, t.finishedAt.isSome = true →
          (t.SetStatus env status logs w').1.finishedAt.isSome = true := by
  refine ⟨NewTask_finishedAt env job opts w, ?_, by rw [Stop_task], fun status ht => ?_⟩
  · rw [SetStatus_finishedAt, if_neg (by decide)]
  · rw [SetStatus_finishedAt]
    split_ifs
    · rfl
    · exact ht

/-- C14: `WithDefers` appends and preserves order. On a Task whose defers are `d` (a nil
slice counting as empty), `WithDefers(a...)` followed by `WithDefers(b...)` leaves defers
`d ++ a ++ b` and every other field as it was; `NewTask` with `WithDefers(f1, f2)` and
`WithDefers(f3)` leaves exactly `[f1, f2, f3]`. -/
theorem WithDefers_appends (t : Task) (a b : List Func) (env : Env) (job : Job) (w : World)
    (f1 f2 f3 : Func) :
    WithDefers b (WithDefers a t) = { t with defers := some (t.defers.getD [] ++ a ++ b) }
      ∧ (NewTask env job [WithDefers [f1, f2], WithDefers [f3]] w).1.defers
        = some [f1, f2, f3] := by
  constructor
  · cases hd : t.defers <;> simp [WithDefers, hd]
  · simp [NewTask, WithDefers, timeNow, NextID]

/-- C15: `NewTask` never fails on an allocation failure. For every Job and every option
list that leaves TaskID at zero, if the allocator's `NextID` returns an error (a failed call
carries no id: it returns the zero value with its error), `NewTask` still returns a Task,
the Task its options left, reports nothing (it has no error result, and the only call it
makes is the `NextID` call), and that Task's TaskID is `0`. -/
theorem NewTask_allocation_failure (env : Env) (job : Job) (ops : List TaskOption) (w : World)
    (e : GoError)
    (hzero : (optionsApplied env job ops w).TaskID = 0)
    (hfail : env.nextID w.idCalls = (0, some e)) :
    (NewTask env job ops w).1 = optionsApplied env job ops w
      ∧ (NewTask env job ops w).1.TaskID = 0
      ∧ (NewTask env job ops w).2.trace = w.trace ++ [Event.nextID] := by
  rw [NewTask_eq, if_pos hzero, hfail]
  refine ⟨?_, rfl, rfl⟩
  show ({ optionsApplied env job ops w with TaskID := 0 } : Task) = optionsApplied env job ops w
  rw [← hzero]

/-- C15 at the option `WithExecuteType(Manual)` and a failing allocator. -/
theorem NewTask_allocation_failure_witness :
    (optionsApplied failingIdEnv exampleJob [WithExecuteType ExecuteTypeManual]
        World.start).TaskID = 0
      ∧ failingIdEnv.nextID World.start.idCalls = (0, some ⟨"allocator unavailable"⟩)
      ∧ (NewTask failingIdEnv exampleJob [WithExecuteType ExecuteTypeManual]
          World.start).1.TaskID = 0
      ∧ (NewTask failingIdEnv exampleJob [WithExecuteType ExecuteTypeManual]
          World.start).2.trace = [Event.nextID] :=
  ⟨by decide, rfl,
    (NewTask_allocation_failure failingIdEnv exampleJob [WithExecuteType ExecuteTypeManual]
      World.start ⟨"allocator unavailable"⟩ (by decide) rfl).2.1,
    (NewTask_allocation_failure failingIdEnv exampleJob [WithExecuteType ExecuteTypeManual]
      World.start ⟨"allocator unavailable"⟩ (by decide) rfl).2.2⟩

/-- C16: options are applied in order and ExecuteType defaults to Auto. For every list of
the provided options, the ExecuteType of the Task `NewTask` returns is the argument of the
last `WithExecuteType` option of the list, and Auto when there is none; `WithTaskID` and
`WithDefers` options play no part. -/
theorem NewTask_ExecuteType (env : Env) (job : Job) (opts : List TaskOpt) (w : World) :
    (NewTask env job (opts.map TaskOpt.fn) w).1.ExecuteType
      = (lastExecuteType opts).getD ExecuteTypeAuto := by
  rw [NewTask_eq]
  split_ifs <;> simp [optionsApplied, foldl_opts_ExecuteType]

/-- C17: `SetStatus` is not atomic on a failed write. When the store Put fails with `e`,
`SetStatus` returns `e`; for a terminal status the Task it leaves nevertheless has
`finishedAt` set to the clock reading of the call, and for Processing the Task is left
entirely unchanged. -/
theorem SetStatus_failed_put (env : Env) (t : Task) (status : CronTaskStatus) (logs : String)
    (w : World) (e : GoError) (hterm : IsTerminal status)
    (hfail : ∀ key value, env.put w.storeCalls key value = some e) :
    (t.SetStatus env status logs w).2.1 = some e
      ∧ (t.SetStatus env status logs w).1
        = { t with finishedAt := some (env.now w.clockReads) }
      ∧ (t.SetStatus env CronTaskStatusProcessing logs w).2.1 = some e
      ∧ (t.SetStatus env CronTaskStatusProcessing logs w).1 = t := by
  have hP : ¬ IsTerminal CronTaskStatusProcessing := by decide
  unfold IsTerminal at hterm hP
  simp [Task.SetStatus, hterm, hP, timeNow, clientPut, hfail]

/-- C17 at `SetStatus(Failed, "boom")` on a store that rejects every call. -/
theorem SetStatus_failed_put_witness :
    IsTerminal CronTaskStatusFailed
      ∧ (∀ key value, failingStoreEnv.put World.start.storeCalls key value
          = some ⟨"store unavailable"⟩)
      ∧ (exampleTask.SetStatus failingStoreEnv CronTaskStatusFailed "boom" World.start).1
        = { exampleTask with finishedAt := some 100 } :=
  ⟨by decide, fun _ _ => rfl,
    (SetStatus_failed_put failingStoreEnv exampleTask CronTaskStatusFailed "boom" World.start
      ⟨"store unavailable"⟩ (by decide) (fun _ _ => rfl)).2.1⟩

/-- C18: `NewTask` consults the allocator exactly when the TaskID is zero after all options
have been applied. In that case it makes one `NextID` call and adopts the id returned;
otherwise it makes no `NextID` call and returns the Task the options left. In either case
it makes no store call, so no Put and no Delete. -/
theorem NewTask_allocator_calls (env : Env) (job : Job) (ops : List TaskOption) (w : World) :
    ((optionsApplied env job ops w).TaskID = 0 →
        (NewTask env job ops w).2.trace = w.trace ++ [Event.nextID]
          ∧ (NewTask env job ops w).2.idCalls = w.idCalls + 1
          ∧ (NewTask env job ops w).1
            = { optionsApplied env job ops w with TaskID := (env.nextID w.idCalls).1 })
      ∧ ((optionsApplied env job ops w).TaskID ≠ 0 →
        (NewTask env job ops w).2.trace = w.trace
          ∧ (NewTask env job ops w).2.idCalls = w.idCalls
          ∧ (NewTask env job ops w).1 = optionsApplied env job ops w)
      ∧ (NewTask env job ops w).2.storeCalls = w.storeCalls := by
  rw [NewTask_eq]
  refine ⟨fun h => by simp [h], fun h => by simp [h], ?_⟩
  split_ifs <;> rfl

end JunoAgent
